import Mathlib

/-!
# Verification of the ALAN-2022 compiler sources

A shallow embedding of the compiler's scanner (`src/alan/src/scanner.c`),
symbol table (`src/alan/src/symboltable.c`, first part), parser/driver
(`alanc.c`, concatenated as the second part of `symboltable.c`), and the
generic hash table (`src/unnamed/part_000`, `hashtable.c`), together with
theorems settling the specification claims about them.

Machine integers are modelled as `Nat`/`Int` with explicit `% 2 ^ 32`
where the C code can wrap.  Characters and bytes are modelled as `Nat`
ASCII codes; EOF is the end of the input list.
-/

/- ================================================================
   Value types (`valtypes.h`)
   ================================================================ -/

/-- Base kind of a value.  Modelled from the spec: `valtypes.h` is not in
`src/`; the spec describes a `ValType` as the product of a base kind in
{INTEGER, BOOLEAN, NONE} with an `is_array` bit, plus a `CALLABLE` marker
used on symbol-table entries for functions and procedures. -/
inductive BaseKind where
  | INT
  | BOOL
  | NONE
deriving DecidableEq, Repr

/-- Modelled from the spec: the `ValType` carried by tokens of the missing
`valtypes.h`, as a record of base kind, array bit and callable marker. -/
structure ValType where
  base : BaseKind
  isArray : Bool
  callable : Bool
deriving DecidableEq, Repr

/-- Modelled from the spec: the `TYPE_NONE` constant of `valtypes.h`. -/
def TYPE_NONE : ValType := ⟨.NONE, false, false⟩

/-- Modelled from the spec: the `TYPE_BOOLEAN` constant of `valtypes.h`. -/
def TYPE_BOOL : ValType := ⟨.BOOL, false, false⟩

/-- Modelled from the spec: the `TYPE_INTEGER` constant of `valtypes.h`. -/
def TYPE_INT : ValType := ⟨.INT, false, false⟩

/-- Modelled from the spec: the `TYPE_ARRAY` value that `parse_type` stores
for an integer array (an integer base with the array bit set). -/
def TYPE_ARRAY : ValType := ⟨.INT, true, false⟩

/-- Modelled from the spec: the `TYPE_CALLABLE` marker that `parse_funcdef`
passes to `idprop` for a subroutine entry. -/
def TYPE_CALLABLE : ValType := ⟨.NONE, false, true⟩

/-- Modelled from the spec: the `IS_CALLABLE_TYPE` predicate of
`valtypes.h` (an entry whose type carries the CALLABLE marker). -/
def IS_CALLABLE_TYPE (t : ValType) : Bool := t.callable

/-- Modelled from the spec: the `IS_PROCEDURE` predicate of `valtypes.h`
(a callable with a NONE return base). -/
def IS_PROCEDURE (t : ValType) : Bool := t.callable && t.base == .NONE

/-- `IDprop` from `symboltable.h`/`alanc.c` (`idprop` constructor in
`alanc.c`): the value type, the local-variable offset, the parameter count
and the parameter types of a symbol-table entry. -/
structure IDprop where
  type : ValType
  offset : Nat
  nparams : Nat
  params : List ValType
deriving DecidableEq, Repr

/- ================================================================
   Symbol table (`symboltable.c`)

   The hash table underlying the symbol table chains same-hash keys in
   one bucket; equal keys always land in the same bucket, `ht_insert`
   appends at the end of the chain, and `ht_search` returns the first
   match of the chain.  For string keys the observable behaviour of
   `ht_insert`/`ht_search` is therefore that of an association list with
   append-at-end insertion and first-match lookup, which is how a single
   scope is modelled here.  (The bucket-level embedding used for the
   bounds claim is below, under `HashTab`.)
   ================================================================ -/

/-- One scope of the symbol table: insertion-ordered association list of
identifier/property pairs (see the note above on `ht_insert`/`ht_search`). -/
abbrev Scope := List (String × IDprop)

/-- Observable behaviour of `ht_search` (`hashtable.c`) on a string-keyed
table: the value of the first (earliest-inserted) entry whose key compares
equal under `key_strcmp`, if any. -/
def tbl_search (t : Scope) (id : String) : Option IDprop :=
  (t.find? (fun e => e.1 == id)).map (fun e => e.2)

/-- Observable behaviour of `ht_insert` (`hashtable.c`) on a string-keyed
table: unconditionally append the new entry to its chain and report
`EXIT_SUCCESS` (the function has no failure path), so the insert-half of
`insert_name`'s condition `ht_insert(table, id, prop) == 0` always holds. -/
def tbl_insert (t : Scope) (id : String) (prop : IDprop) : Scope :=
  t ++ [(id, prop)]

/-- The two global pointers of `symboltable.c`: `table` (the current
scope) and `saved_table`.  Either may be NULL (`none`); `init_symbol_table`
sets `table` to a fresh empty table and `saved_table` to NULL. -/
structure SymState where
  tab : Option Scope
  saved : Option Scope
deriving DecidableEq, Repr

/-- `init_symbol_table` from `symboltable.c`: `saved_table = NULL`, fresh
empty current table. -/
def init_symbol_table : SymState := ⟨some [], none⟩

/-- The core of `find_name` (`symboltable.c` lines 77-89) including the
out-parameter behaviour: the returned `Bool` is the `found` result, the
`Option IDprop` is the final value of `*prop` (`none` when no `ht_search`
call matched, in which case the C out-parameter is left untouched).
Note that when the name is found in the outer table but is not callable,
`found` is forced to FALSE although `*prop` was already overwritten. -/
def find_name_core (cur : Scope) (saved : Option Scope) (id : String) :
    Bool × Option IDprop :=
  match tbl_search cur id with
  | some p => (true, some p)
  | none =>
    match saved with
    | none => (false, none)
    | some outer =>
      match tbl_search outer id with
      | some p => (IS_CALLABLE_TYPE p.type, some p)
      | none => (false, none)

/-- `find_name` as seen by a caller that only uses `*prop` when the result
is TRUE: `some` of the found property, or `none`. -/
def find_name (cur : Scope) (saved : Option Scope) (id : String) :
    Option IDprop :=
  match find_name_core cur saved id with
  | (true, p) => p
  | (false, _) => none

/-- `insert_name` from `symboltable.c` lines 66-75: succeeds (TRUE) and
inserts exactly when `find_name` fails; note that `&prop` is passed to
`find_name`, so a non-callable match in the outer table overwrites `prop`
before the insertion (the aliasing is preserved here).  `ht_insert`
always returns 0, so the second conjunct of the guard is always true.
Returns the C result together with the updated current scope. -/
def insert_name (cur : Scope) (saved : Option Scope) (id : String)
    (prop : IDprop) : Bool × Scope :=
  match find_name_core cur saved id with
  | (false, propOut) => (true, tbl_insert cur id (propOut.getD prop))
  | (true, _) => (false, cur)

/-- `open_subroutine` from `symboltable.c` lines 43-58: `ht_insert` into
the current table and return immediately (`ht_insert` always returns 0, so
the result is always TRUE).  The statements after the `return` --- saving
the current table as `saved_table` and creating a fresh inner table ---
are unreachable and therefore absent here.  A NULL current table would be
dereferenced by `ht_insert` in C; that state is never reached in the runs
below, and is modelled as leaving the state unchanged. -/
def open_subroutine (st : SymState) (id : String) (prop : IDprop) :
    Bool × SymState :=
  match st.tab with
  | some t => (true, { st with tab := some (tbl_insert t id prop) })
  | none => (true, st)

/-- `close_subroutine` from `symboltable.c` lines 60-64: free the current
table and make `saved_table` the current table (`saved_table` itself is
not changed by the function). -/
def close_subroutine (st : SymState) : SymState :=
  { tab := st.saved, saved := st.saved }

/- ================================================================
   Generic hash table (`hashtable.c`, `src/unnamed/part_000`)
   ================================================================ -/

/-- The `delta` array of `hashtable.c`: differences between powers of two
and the largest prime below them. -/
def delta : List Nat :=
  [0, 0, 1, 1, 3, 1, 3, 1, 5, 3, 3, 9, 3, 1, 3, 19,
   15, 1, 5, 1, 3, 9, 3, 15, 3, 39, 5, 39, 57, 3, 35, 1]

/-- `getsize` from `hashtable.c`: with the index at `idx`, bump it to
`idx + 1` and return `2 ^ (idx + 1) - delta[idx + 1]`. -/
def getsize (idx : Nat) : Nat := 2 ^ (idx + 1) - delta.getD (idx + 1) 0

/-- The table sizes actually used by the hash table: `ht_init` starts the
index at `INITIAL_DELTA_INDEX = 4`, and each of `ht_init`/`rehash` obtains
the next size from `getsize`, so the size after `n` rehashes is
`getsize (4 + n)` (31, 61, 127, 251, ...). -/
def usedSize (n : Nat) : Nat := getsize (4 + n)

/-- The modulus of a C `unsigned int` / the width of `int`. -/
def UINT_MOD : Nat := 2 ^ 32

/-- Arithmetic (sign-extending) right shift by 27 of a 32-bit two's
complement value given by its unsigned representation: `h >> 27` on the
C `int h` as compiled (gcc sign-extends negative values). -/
def sar27 (h : Nat) : Nat :=
  if h < 2 ^ 31 then h / 2 ^ 27 else h / 2 ^ 27 + (UINT_MOD - 2 ^ 5)

/-- One iteration of the hash loop of `shift_hash` (`symboltable.c` lines
111-125) on the unsigned representation of the running `int h`:
`h = (h << 5) | (h >> 27); h += (int)temp[i]` (the left shift wraps at 32
bits; identifier bytes are ASCII, hence non-negative as `(int)char`). -/
def hash_step (h b : Nat) : Nat :=
  (((h * 2 ^ 5 % UINT_MOD) ||| sar27 h) + b) % UINT_MOD

/-- `shift_hash` from `symboltable.c`: the function first replaces `size`
by `size - 1`, folds `hash_step` over the key bytes starting from 0, and
returns `h % size`.  `h` is an `int` and `size` an `unsigned int`, so the
usual arithmetic conversions convert `h` to its unsigned representation
before the modulo; the result is therefore the non-negative
`(unsigned)h % (size - 1)`. -/
def shift_hash (key : List Nat) (size : Nat) : Nat :=
  (key.foldl hash_step 0) % (size - 1)

/-- The hash-table container of `hashtable.c` (`struct hashtab`)
specialised to the symbol-table instantiation (string keys as ASCII byte
lists, `IDprop` values, hash function `shift_hash` as installed by
`init_symbol_table`): an array of `size` buckets, each a chain of
key/value entries. -/
structure HashTab where
  size : Nat
  table : List (List (List Nat × IDprop))
deriving Repr

/-- The bucket index `k = ht->hash(key, ht->size)` computed by both
`ht_insert` and `ht_search` (`hashtable.c`) before accessing
`ht->table[k]`. -/
def ht_bucket (ht : HashTab) (key : List Nat) : Nat :=
  shift_hash key ht.size

/-- `ht_search` from `hashtable.c`: access bucket `ht_bucket ht key` and
return the value of the first chain entry whose key compares equal. -/
def ht_search (ht : HashTab) (key : List Nat) : Option IDprop :=
  (((ht.table.getD (ht_bucket ht key) []).find? (fun e => e.1 == key)).map
    (fun e => e.2))

/-- `ht_insert` from `hashtable.c`, without the load-factor rehash:
append the new entry at the end of the chain of bucket
`ht_bucket ht key` (duplicates are not rejected; the function always
returns `EXIT_SUCCESS`). -/
def ht_insert (ht : HashTab) (key : List Nat) (val : IDprop) : HashTab :=
  { ht with
    table := ht.table.set (ht_bucket ht key)
      (ht.table.getD (ht_bucket ht key) [] ++ [(key, val)]) }

/- ================================================================
   Scanner (`scanner.c`)
   ================================================================ -/

/-- `INT_MAX` of `<limits.h>` on the 32-bit `int` used by the scanner. -/
def INT_MAX : Nat := 2147483647

/-- The accumulation loop of `process_number` (`scanner.c` lines 308-335)
after the first digit: for each further digit `d`, first test
`INT_MAX / 10 < number || (INT_MAX / 10 == number && d > INT_MAX % 10)`
and abort with the fatal "number too large" if it holds, otherwise
accumulate `number = 10 * number + d`.  The digits are given as their
numeric values; `.error` is the fatal `leprintf` exit. -/
def pn_loop : Nat → List Nat → Except Unit Nat
  | number, [] => .ok number
  | number, d :: ds =>
    if INT_MAX / 10 < number ∨ (INT_MAX / 10 = number ∧ INT_MAX % 10 < d)
    then .error ()
    else pn_loop (10 * number + d) ds

/-- `process_number` from `scanner.c` on a maximal digit sequence
`d :: ds` (the scanner enters it with at least one digit): the value of
the NUMBER token, or the fatal overflow error. -/
def process_number (d : Nat) (ds : List Nat) : Except Unit Nat :=
  pn_loop d ds

/-- `isprint` of `<ctype.h>`: printable ASCII. -/
def c_isprint (c : Nat) : Bool := 32 ≤ c && c ≤ 126

/-- The character-after-append checks of `process_string` (`scanner.c`):
after advancing, EOF is the fatal "string not closed" and a newline,
non-ASCII or non-printable character is fatal.  `true` means the loop may
continue. -/
def ps_bad (c : Nat) : Bool := 128 ≤ c || c == 10 || !(c_isprint c)

/-- Fatal scanner outcomes of `process_string`. -/
inductive StrErr where
  | notClosed
  | illegalEscape
  | nonPrintable
deriving DecidableEq, Repr

/-- The scanning loop of `process_string` (`scanner.c` lines 343-395),
entered with the character after the opening quote as the current
character (head of the input; an empty list is EOF).  `acc` is the token
buffer `line`.  On a backslash the code first appends the backslash
itself, then validates the next character against `n`, `t`, `"` and `\`
(anything else, including EOF, is the fatal illegal escape) and appends
that character as well --- the escape is kept verbatim, not decoded.
After each append the code advances and applies the EOF and printability
checks to the new current character.  Returns the token's byte sequence
and the rest of the input after the closing quote. -/
def process_string (acc : List Nat) :
    List Nat → Except StrErr (List Nat × List Nat)
  | [] => .error .notClosed
  | c :: rest =>
    if c == 34 then .ok (acc, rest)
    else if c == 92 then
      match rest with
      | [] => .error .illegalEscape
      | c2 :: rest2 =>
        if c2 == 110 || c2 == 116 || c2 == 34 || c2 == 92 then
          match rest2 with
          | [] => .error .notClosed
          | c3 :: _ =>
            if ps_bad c3 then .error .nonPrintable
            else process_string (acc ++ [92, c2]) rest2
        else .error .illegalEscape
    else
      match rest with
      | [] => .error .notClosed
      | c3 :: _ =>
        if ps_bad c3 then .error .nonPrintable
        else process_string (acc ++ [c]) rest

/- ----------------------------------------------------------------
   Source reader state and `next_char`, for `skip_comment`
   ---------------------------------------------------------------- -/

/-- The scanner's character-level state: the current character `ch`
(`none` is EOF, which is sticky), the unread input, `column_number`,
`position.line` and the `last_read == NEWLINE` flag of `next_char`. -/
structure ScanSt where
  cur : Option Nat
  rest : List Nat
  colno : Nat
  line : Nat
  lastNL : Bool
deriving DecidableEq, Repr

/-- `next_char` from `scanner.c` lines 276-301: return at EOF (sticky),
fetch the next character, return before touching the counters if it is
EOF, otherwise reset the column and bump the line if the previously read
character was a newline, then increment `column_number` and remember
whether the new character is a newline. -/
def next_char (s : ScanSt) : ScanSt :=
  match s.cur with
  | none => s
  | some _ =>
    match s.rest with
    | [] => { s with cur := none }
    | c :: rs =>
      let col0 := if s.lastNL then 0 else s.colno
      let line0 := if s.lastNL then s.line + 1 else s.line
      { cur := some c, rest := rs, colno := col0 + 1, line := line0,
        lastNL := c == 10 }

/-- A reported source position `(line, column)`. -/
abbrev Pos := Nat × Nat

mutual

/-- `skip_comment` from `scanner.c` lines 461-497, entered with the
opening brace as the current character.  `temp1`/`temp2` record the
entry column and line; after one `next_char`, EOF is immediately the
fatal "comment not closed" at the entry column, otherwise the while loop
runs.  Errors carry the reported `(line, column)`; the fuel only bounds
the recursion and is chosen large enough in every use below. -/
def skip_comment : Nat → ScanSt → Except Pos ScanSt
  | 0, _ => .error (0, 0)
  | fuel + 1, s =>
    let t1 := s.colno
    let t2 := s.line
    let s1 := next_char s
    match s1.cur with
    | none => .error (s1.line, t1)
    | some _ => sc_loop fuel t1 t2 s1

/-- The `while (ch != '}')` loop of `skip_comment`: at `}` exit and
consume it; at `{` recurse into `skip_comment`, then re-apply the body's
`}`-break and EOF checks to the character following the inner comment;
at EOF fail at the entry position `(temp2, temp1)`; otherwise advance. -/
def sc_loop : Nat → Nat → Nat → ScanSt → Except Pos ScanSt
  | 0, _, _, _ => .error (0, 0)
  | fuel + 1, t1, t2, s =>
    match s.cur with
    | none => .error (t2, t1)
    | some c =>
      if c == 125 then .ok (next_char s)
      else if c == 123 then
        match skip_comment fuel s with
        | .error e => .error e
        | .ok s' =>
          match s'.cur with
          | none => .error (t2, t1)
          | some c' =>
            if c' == 125 then .ok (next_char s')
            else sc_loop fuel t1 t2 (next_char s')
      else sc_loop fuel t1 t2 (next_char s)

end

/- ================================================================
   Tokens and the reserved-word lookup of `process_word` (`scanner.c`)
   ================================================================ -/

/-- The token types of `token.h` used by the scanner and parser
(`TOKEN_` prefixes dropped; `TOKEN_BOOLEAN` and `TOKEN_INTEGER` are the
reserved-word tokens `BOOL` and `INTEGER` here). -/
inductive TokenType where
  | AND | ARRAY | BEGIN | BOOL | CALL | DO | ELSE | ELSIF | END
  | FALSE | FUNCTION | GET | IF | INTEGER | LEAVE | NOT | OR | PUT
  | RELAX | REMAINDER | SOURCE | THEN | TO | TRUE | WHILE
  | EQUAL | NOT_EQUAL | LESS_THAN | LESS_EQUAL | GREATER_THAN
  | GREATER_EQUAL | MINUS | PLUS | MULTIPLY | DIVIDE | COMMA
  | CONCATENATE | SEMICOLON | OPEN_PARENTHESIS | CLOSE_PARENTHESIS
  | OPEN_BRACKET | CLOSE_BRACKET | GETS | NUMBER | STRING | ID | EOF
deriving DecidableEq, Repr

/-- The `reserved` table of `scanner.c` lines 30-42, in its source order
(which is ascending under `strcmp`): the 25 reserved words as ASCII byte
lists with their token types. -/
def reservedList : List (List Nat × TokenType) :=
  [
   ([97, 110, 100], .AND),   -- and
   ([97, 114, 114, 97, 121], .ARRAY),   -- array
   ([98, 101, 103, 105, 110], .BEGIN),   -- begin
   ([98, 111, 111, 108, 101, 97, 110], .BOOL),   -- boolean
   ([99, 97, 108, 108], .CALL),   -- call
   ([100, 111], .DO),   -- do
   ([101, 108, 115, 101], .ELSE),   -- else
   ([101, 108, 115, 105, 102], .ELSIF),   -- elsif
   ([101, 110, 100], .END),   -- end
   ([102, 97, 108, 115, 101], .FALSE),   -- false
   ([102, 117, 110, 99, 116, 105, 111, 110], .FUNCTION),   -- function
   ([103, 101, 116], .GET),   -- get
   ([105, 102], .IF),   -- if
   ([105, 110, 116, 101, 103, 101, 114], .INTEGER),   -- integer
   ([108, 101, 97, 118, 101], .LEAVE),   -- leave
   ([110, 111, 116], .NOT),   -- not
   ([111, 114], .OR),   -- or
   ([112, 117, 116], .PUT),   -- put
   ([114, 101, 108, 97, 120], .RELAX),   -- relax
   ([114, 101, 109], .REMAINDER),   -- rem
   ([115, 111, 117, 114, 99, 101], .SOURCE),   -- source
   ([116, 104, 101, 110], .THEN),   -- then
   ([116, 111], .TO),   -- to
   ([116, 114, 117, 101], .TRUE),   -- true
   ([119, 104, 105, 108, 101], .WHILE)]   -- while

/-- `NUM_RESERVED_WORDS` from `scanner.c`. -/
def NUM_RESERVED_WORDS : Nat := 25

/-- `strcmp(a, b) < 0` on NUL-terminated byte strings: lexicographic
comparison of the byte lists (a strict prefix is smaller, matching the
NUL terminator comparing below every identifier byte). -/
def strlt : List Nat → List Nat → Bool
  | [], [] => false
  | [], _ :: _ => true
  | _ :: _, [] => false
  | a :: as, b :: bs =>
    if a < b then true else if b < a then false else strlt as bs

/-- `reserved[n].word` for a natural index. -/
def resWordN (n : Nat) : List Nat := (reservedList.getD n ([], .AND)).1

/-- `reserved[n].type` for a natural index. -/
def resTokN (n : Nat) : TokenType := (reservedList.getD n ([], .AND)).2

/-- `reserved[i].word` for a C `int` index (in every reachable state the
index is within the table). -/
def resWord (i : Int) : List Nat := resWordN i.toNat

/-- `reserved[i].type` for a C `int` index. -/
def resTok (i : Int) : TokenType := resTokN i.toNat

/-- The do-while binary search of `process_word` (`scanner.c` lines
432-442), returning the value of `mid` at loop exit.  `strcmp < 0` and
`strcmp > 0` are `strlt` in the two directions.
`mid = (low + high) / 2` is C `int` division; on every call below
`0 <= low <= high`, where truncating division equals the
`(low + high).toNat / 2` used here.  The loop exits when the comparison
is equal or the halved interval becomes empty; each round shrinks the
interval, and the fuel (32 at the call site) exceeds the initial
interval width, so the fuel case is never reached. -/
def bstep : Nat → Int → Int → List Nat → Int
  | 0, low, high, _ => ((low + high).toNat / 2 : Nat)
  | fuel + 1, low, high, lex =>
    let mid : Int := ((low + high).toNat / 2 : Nat)
    if strlt lex (resWord mid) then
      if low ≤ mid - 1 then bstep fuel low (mid - 1) lex else mid
    else if strlt (resWord mid) lex then
      if mid + 1 ≤ high then bstep fuel (mid + 1) high lex else mid
    else mid

/-- The classification at the end of `process_word` (`scanner.c` lines
443-452): run the binary search over `[0, NUM_RESERVED_WORDS - 1]` and
test `strcmp(lexeme, reserved[mid].word) == 0` at the final `mid`
(equality of the byte lists): equal means the reserved word's token
type, otherwise an ID token. -/
def process_word_lookup (lex : List Nat) : Option TokenType :=
  let mid := bstep 32 0 24 lex
  if lex = resWord mid then some (resTok mid) else none

/-- A scanner token as filled in by `process_word`: the token type, the
`lexeme` field (set only for IDs) and the `value` field (set only by
`process_number`). -/
structure Token where
  tt : TokenType
  lexeme : String
  value : Int
deriving DecidableEq, Repr

/-- The outcome of `process_word` for a lexed word: either a reserved
word's token type, or an ID token carrying the lexeme (which the C code
copies into `token->lexeme` with `strcpy`). -/
inductive WordResult where
  | reserved (t : TokenType)
  | id (lexeme : List Nat)
deriving DecidableEq, Repr

/-- `process_word`'s classification of a lexed word `lex` (already
length-checked against `MAX_ID_LENGTH`): the reserved token type found
by the binary search, or an ID carrying the lexeme. -/
def process_word (lex : List Nat) : WordResult :=
  match process_word_lookup lex with
  | some t => .reserved t
  | none => .id lex

/- ================================================================
   Parser and error handling (`alanc.c`, the second part of
   `symboltable.c` in this repository checkout)
   ================================================================ -/

/-- `EXIT_SUCCESS` of `<stdlib.h>`: the exit code `main` returns on a
successful compilation. -/
def EXIT_SUCCESS : Nat := 0

/-- How a parser routine can fail: `exitWith c` is a process termination
with exit code `c` (the only exit the parser's error paths perform);
`ub` marks a dereference of an uninitialised or NULL pointer (never
reached in the runs below); `outOfFuel` is the artificial fuel bound of
the embedding, chosen large enough in every use below. -/
inductive CAbort where
  | exitWith (code : Nat)
  | ub
  | outOfFuel
deriving DecidableEq, Repr

/-- The outcome of `abort_compile` (`alanc.c`): its body begins with
`exit(0)`, so every syntactic and semantic diagnostic terminates the
process with exit code 0 and the diagnostic code below it is
unreachable.  (`abort_compile_pos` begins with the same `exit(0)`.) -/
def abort_compile_outcome : CAbort := .exitWith 0

/-- `check_types` from `alanc.c` lines 966-985: the body begins with
`exit(0)`, so the call terminates the process with exit code 0 no matter
which types are passed; the comparison and the "incompatible types"
message below it are unreachable.  (Additionally, no call to
`check_types` in `alanc.c` is outside comments, so it is never invoked.) -/
def check_types (found expected : ValType) : CAbort := .exitWith 0

/-- The parser's global state: the lookahead token stream (`token` is the
head; the scanner returns EOF forever at the end), the symbol-table
globals `table`/`saved_table`, and `off_counter`. -/
structure PSt where
  toks : List Token
  tab : Option Scope
  saved : Option Scope
  offCounter : Nat
deriving DecidableEq, Repr

/-- The EOF token the scanner produces at end of input. -/
def eofToken : Token := ⟨.EOF, "", 0⟩

/-- The lookahead token. -/
def curTok (st : PSt) : Token := st.toks.headD eofToken

/-- `get_token(&token)`: advance the lookahead (EOF is sticky). -/
def adv (st : PSt) : PSt := { st with toks := st.toks.tail }

/-- The result type of a parser routine. -/
abbrev P := Except CAbort

/-- `expect` from `alanc.c`: consume the expected token type or call
`abort_compile(ERR_EXPECT, type)`. -/
def expect (t : TokenType) (st : PSt) : P PSt :=
  if (curTok st).tt = t then .ok (adv st) else .error abort_compile_outcome

/-- `expect_id` from `alanc.c`: consume an ID and return its lexeme, or
call `abort_compile(ERR_EXPECT, TOKEN_ID)`. -/
def expect_id (st : PSt) : P (String × PSt) :=
  if (curTok st).tt = .ID then .ok ((curTok st).lexeme, adv st)
  else .error abort_compile_outcome

/-- `STARTS_FACTOR` macro from `alanc.c`. -/
def STARTS_FACTOR (t : TokenType) : Bool :=
  t == .ID || t == .NUMBER || t == .OPEN_PARENTHESIS || t == .NOT ||
  t == .TRUE || t == .FALSE

/-- `STARTS_EXPR` macro from `alanc.c`. -/
def STARTS_EXPR (t : TokenType) : Bool := t == .MINUS || STARTS_FACTOR t

/-- `IS_ADDOP` macro from `alanc.c`: the enum range
`TOKEN_MINUS <= t <= TOKEN_PLUS`.  Modelled from the spec as the addop
set {-, or, +} (`token.h` with the enum order is not in `src/`; the
switch below the macro handles exactly MINUS, PLUS and OR). -/
def IS_ADDOP (t : TokenType) : Bool :=
  t == .MINUS || t == .OR || t == .PLUS

/-- `IS_MULOP` macro from `alanc.c`. -/
def IS_MULOP (t : TokenType) : Bool :=
  t == .AND || t == .DIVIDE || t == .MULTIPLY || t == .REMAINDER

/-- `IS_ORDOP` macro from `alanc.c`. -/
def IS_ORDOP (t : TokenType) : Bool := t == .EQUAL || t == .NOT_EQUAL

/-- `IS_RELOP` macro from `alanc.c`. -/
def IS_RELOP (t : TokenType) : Bool :=
  t == .GREATER_EQUAL || t == .GREATER_THAN || t == .LESS_EQUAL ||
  t == .LESS_THAN

/-- `IS_TYPE_TOKEN` macro from `alanc.c`. -/
def IS_TYPE_TOKEN (t : TokenType) : Bool := t == .BOOL || t == .INTEGER

/-- `insert_name` as used by the parser on the global state (the Boolean
result is ignored by every caller in `alanc.c`); a NULL `table` would be
dereferenced by `ht_insert`. -/
def p_insert_name (st : PSt) (id : String) (prop : IDprop) : P PSt :=
  match st.tab with
  | none => .error .ub
  | some cur => .ok { st with tab := some (insert_name cur st.saved id prop).2 }

/-- `find_name(id, &p)` as used by the parser: the Boolean result and the
final value of the out-parameter (`none` when it was left uninitialised). -/
def p_find_core (st : PSt) (id : String) : P (Bool × Option IDprop) :=
  match st.tab with
  | none => .error .ub
  | some cur => .ok (find_name_core cur st.saved id)

/-- `open_subroutine` on the parser state (see `open_subroutine` above:
insert into the current table and return; the scope-saving code is
unreachable). -/
def p_open_subroutine (st : PSt) (id : String) (prop : IDprop) : P PSt :=
  match st.tab with
  | none => .error .ub
  | some cur => .ok { st with tab := some (tbl_insert cur id prop) }

/-- `close_subroutine` on the parser state: free the current table and
make `saved_table` current (`saved_table` itself is unchanged). -/
def p_close_subroutine (st : PSt) : PSt :=
  { st with tab := st.saved }

/-- `parse_type` from `alanc.c`: `boolean` or `integer`, optionally
followed by `array` (which is consumed; only the integer branch records
the array flag in `*type`), or `abort_compile(ERR_TYPE_EXPECTED, ...)`. -/
def parse_type (st : PSt) : P (ValType × PSt) :=
  if (curTok st).tt = .BOOL then
    let st := adv st
    if (curTok st).tt = .ARRAY then .ok (TYPE_BOOL, adv st)
    else .ok (TYPE_BOOL, st)
  else if (curTok st).tt = .INTEGER then
    let st := adv st
    if (curTok st).tt = .ARRAY then .ok (TYPE_ARRAY, adv st)
    else .ok (TYPE_INT, st)
  else .error abort_compile_outcome

mutual

/-- `parse_source` from `alanc.c`: `"source" id { funcdef } body` (the
code-generation calls do not affect acceptance and are omitted; the
`main` subroutine is emitted without `open_subroutine`, which is
commented out in the source). -/
def parse_source : Nat → PSt → P PSt
  | 0, _ => .error .outOfFuel
  | fuel + 1, st => do
    let st ← expect .SOURCE st
    let (_, st) ← expect_id st
    let st ← parse_funcdefs fuel st
    parse_body fuel st

/-- The `while (token.type == TOKEN_FUNCTION)` loop of `parse_source`. -/
def parse_funcdefs : Nat → PSt → P PSt
  | 0, _ => .error .outOfFuel
  | fuel + 1, st =>
    if (curTok st).tt = .FUNCTION then do
      let st ← parse_funcdef fuel st
      parse_funcdefs fuel st
    else pure st

/-- `parse_funcdef` from `alanc.c`: header with optional parameter list
and optional (looped) `"to" type`, then `open_subroutine`, the body, and
`close_subroutine`.  The `IDprop` is built from `TYPE_CALLABLE`, offset
1 and the collected parameter types, exactly as in the source. -/
def parse_funcdef : Nat → PSt → P PSt
  | 0, _ => .error .outOfFuel
  | fuel + 1, st => do
    let st ← expect .FUNCTION st
    let (fname, st) ← expect_id st
    let st ← expect .OPEN_PARENTHESIS st
    let (params, st) ←
      if IS_TYPE_TOKEN (curTok st).tt then do
        let (ty, st) ← parse_type st
        let (_, st) ← expect_id st
        parse_params fuel [ty] st
      else pure ([], st)
    let st ← expect .CLOSE_PARENTHESIS st
    let st ← parse_to_clause fuel st
    let st ← p_open_subroutine st fname ⟨TYPE_CALLABLE, 1, params.length, params⟩
    let st ← parse_body fuel st
    pure (p_close_subroutine st)

/-- The `while (token.type == TOKEN_COMMA)` parameter loop of
`parse_funcdef`, collecting the declared parameter types in order. -/
def parse_params : Nat → List ValType → PSt → P (List ValType × PSt)
  | 0, _, _ => .error .outOfFuel
  | fuel + 1, acc, st =>
    if (curTok st).tt = .COMMA then do
      let st := adv st
      let (ty, st) ← parse_type st
      let (_, st) ← expect_id st
      parse_params fuel (acc ++ [ty]) st
    else pure (acc, st)

/-- The `while (token.type == TOKEN_TO) { get_token; parse_type; }` loop
of `parse_funcdef` (a `while`, not an `if`, in the source). -/
def parse_to_clause : Nat → PSt → P PSt
  | 0, _ => .error .outOfFuel
  | fuel + 1, st =>
    if (curTok st).tt = .TO then do
      let (_, st) ← parse_type (adv st)
      parse_to_clause fuel st
    else pure st

/-- `parse_body` from `alanc.c`: `"begin" { vardef } statements "end"`. -/
def parse_body : Nat → PSt → P PSt
  | 0, _ => .error .outOfFuel
  | fuel + 1, st => do
    let st ← expect .BEGIN st
    let st ← parse_vardefs fuel st
    let st ← parse_statements fuel st
    expect .END st

/-- The `while (IS_TYPE_TOKEN(token.type))` loop of `parse_body`. -/
def parse_vardefs : Nat → PSt → P PSt
  | 0, _ => .error .outOfFuel
  | fuel + 1, st =>
    if IS_TYPE_TOKEN (curTok st).tt then do
      let st ← parse_vardef fuel st
      parse_vardefs fuel st
    else pure st

/-- `parse_vardef` from `alanc.c`: bump `off_counter`, parse the type and
first identifier, `insert_name` it, then the comma loop and the
semicolon.  The Boolean result of `insert_name` is ignored. -/
def parse_vardef : Nat → PSt → P PSt
  | 0, _ => .error .outOfFuel
  | fuel + 1, st => do
    let st := { st with offCounter := st.offCounter + 1 }
    let (ty, st) ← parse_type st
    let (vname, st) ← expect_id st
    let st ← p_insert_name st vname ⟨ty, st.offCounter, 0, []⟩
    let st ← parse_vardef_more fuel ty st
    expect .SEMICOLON st

/-- The `while (token.type == TOKEN_COMMA)` loop of `parse_vardef`
(each further identifier gets the same parsed type and the next
offset). -/
def parse_vardef_more : Nat → ValType → PSt → P PSt
  | 0, _, _ => .error .outOfFuel
  | fuel + 1, ty, st =>
    if (curTok st).tt = .COMMA then do
      let st := { adv st with offCounter := st.offCounter + 1 }
      let (vname, st) ← expect_id st
      let st ← p_insert_name st vname ⟨ty, st.offCounter, 0, []⟩
      parse_vardef_more fuel ty st
    else pure st

/-- `parse_statements` from `alanc.c`: `"relax"` or a semicolon-separated
statement list. -/
def parse_statements : Nat → PSt → P PSt
  | 0, _ => .error .outOfFuel
  | fuel + 1, st =>
    if (curTok st).tt = .RELAX then expect .RELAX st
    else do
      let st ← parse_statement fuel st
      parse_statements_more fuel st

/-- The `while (token.type == TOKEN_SEMICOLON)` loop of
`parse_statements`. -/
def parse_statements_more : Nat → PSt → P PSt
  | 0, _ => .error .outOfFuel
  | fuel + 1, st =>
    if (curTok st).tt = .SEMICOLON then do
      let st ← parse_statement fuel (adv st)
      parse_statements_more fuel st
    else pure st

/-- `parse_statement` from `alanc.c`: dispatch on the lookahead;
anything else is `abort_compile(ERR_STATEMENT_EXPECTED, ...)`. -/
def parse_statement : Nat → PSt → P PSt
  | 0, _ => .error .outOfFuel
  | fuel + 1, st =>
    match (curTok st).tt with
    | .ID => parse_assign fuel st
    | .CALL => parse_call fuel st
    | .IF => parse_if fuel st
    | .GET => parse_input fuel st
    | .LEAVE => parse_leave fuel st
    | .PUT => parse_output fuel st
    | .WHILE => parse_while fuel st
    | _ => .error abort_compile_outcome

/-- `parse_assign` from `alanc.c`: the identifier, `find_name` into the
local `temp` (uninitialised when nothing matches), the optional
subscript, `:=`, and either an expression (after which
`temp->type == TYPE_ARRAY` dereferences `temp`; the comparison only
selects emitted code and never rejects) or an `array` allocation, or
`abort_compile(ERR_ARRAY_ALLOCATION_OR_EXPRESSION_EXPECTED, ...)`.
No type comparison between the variable and the expression happens:
every call to `check_types` in the parser is commented out. -/
def parse_assign : Nat → PSt → P PSt
  | 0, _ => .error .outOfFuel
  | fuel + 1, st => do
    let (aname, st) ← expect_id st
    let (_, temp) ← p_find_core st aname
    let st ←
      if (curTok st).tt = .OPEN_BRACKET then do
        let st ← parse_simple fuel (adv st)
        expect .CLOSE_BRACKET st
      else pure st
    let st ← expect .GETS st
    if STARTS_EXPR (curTok st).tt then do
      let st ← parse_expr fuel st
      match temp with
      | none => .error .ub
      | some _ => pure st
    else if (curTok st).tt = .ARRAY then do
      let st ← expect .ARRAY st
      parse_simple fuel st
    else .error abort_compile_outcome

/-- `parse_call` from `alanc.c`: `call id (...)`; the found entry `k` is
dereferenced (uninitialised if nothing matched) and a non-procedure is
`abort_compile(ERR_NOT_A_PROCEDURE, ...)`. -/
def parse_call : Nat → PSt → P PSt
  | 0, _ => .error .outOfFuel
  | fuel + 1, st => do
    let st ← expect .CALL st
    let (cname, st) ← expect_id st
    let (_, k) ← p_find_core st cname
    match k with
    | none => .error .ub
    | some kp =>
      if !(IS_PROCEDURE kp.type) then .error abort_compile_outcome
      else do
        let st ← expect .OPEN_PARENTHESIS st
        let st ←
          if STARTS_EXPR (curTok st).tt then do
            let st ← parse_expr fuel st
            parse_arg_more fuel st
          else pure st
        expect .CLOSE_PARENTHESIS st

/-- The `while (token.type == TOKEN_COMMA) { get_token; parse_expr; }`
argument loops of `parse_call` and `parse_factor`. -/
def parse_arg_more : Nat → PSt → P PSt
  | 0, _ => .error .outOfFuel
  | fuel + 1, st =>
    if (curTok st).tt = .COMMA then do
      let st ← parse_expr fuel (adv st)
      parse_arg_more fuel st
    else pure st

/-- `parse_if` from `alanc.c`. -/
def parse_if : Nat → PSt → P PSt
  | 0, _ => .error .outOfFuel
  | fuel + 1, st => do
    let st ← expect .IF st
    let st ← parse_expr fuel st
    let st ← expect .THEN st
    let st ← parse_statements fuel st
    let st ← parse_elsifs fuel st
    let st ←
      if (curTok st).tt = .ELSE then parse_statements fuel (adv st)
      else pure st
    expect .END st

/-- The `while (token.type == TOKEN_ELSIF)` loop of `parse_if`. -/
def parse_elsifs : Nat → PSt → P PSt
  | 0, _ => .error .outOfFuel
  | fuel + 1, st =>
    if (curTok st).tt = .ELSIF then do
      let st ← parse_expr fuel (adv st)
      let st ← expect .THEN st
      let st ← parse_statements fuel st
      parse_elsifs fuel st
    else pure st

/-- `parse_input` from `alanc.c`. -/
def parse_input : Nat → PSt → P PSt
  | 0, _ => .error .outOfFuel
  | fuel + 1, st => do
    let st ← expect .GET st
    let (_, st) ← expect_id st
    if (curTok st).tt = .OPEN_BRACKET then do
      let st ← parse_simple fuel (adv st)
      expect .CLOSE_BRACKET st
    else pure st

/-- `parse_leave` from `alanc.c`. -/
def parse_leave : Nat → PSt → P PSt
  | 0, _ => .error .outOfFuel
  | fuel + 1, st => do
    let st ← expect .LEAVE st
    if STARTS_EXPR (curTok st).tt then parse_expr fuel st
    else pure st

/-- `parse_output` from `alanc.c`: `put` then a string or expression and
the concatenation loop; a non-string non-expression is
`abort_compile(ERR_EXPRESSION_OR_STRING_EXPECTED, ...)`. -/
def parse_output : Nat → PSt → P PSt
  | 0, _ => .error .outOfFuel
  | fuel + 1, st => do
    let st ← expect .PUT st
    if (curTok st).tt = .STRING then parse_put_more fuel (adv st)
    else if STARTS_EXPR (curTok st).tt then do
      let st ← parse_expr fuel st
      parse_put_more fuel st
    else .error abort_compile_outcome

/-- The `while (token.type == TOKEN_CONCATENATE)` loops of
`parse_output` (textually identical in both branches of the source). -/
def parse_put_more : Nat → PSt → P PSt
  | 0, _ => .error .outOfFuel
  | fuel + 1, st =>
    if (curTok st).tt = .CONCATENATE then
      let st := adv st
      if (curTok st).tt = .STRING then parse_put_more fuel (adv st)
      else if STARTS_EXPR (curTok st).tt then do
        let st ← parse_expr fuel st
        parse_put_more fuel st
      else .error abort_compile_outcome
    else pure st

/-- `parse_while` from `alanc.c`. -/
def parse_while : Nat → PSt → P PSt
  | 0, _ => .error .outOfFuel
  | fuel + 1, st => do
    let st ← expect .WHILE st
    let st ← parse_expr fuel st
    let st ← expect .DO st
    let st ← parse_statements fuel st
    expect .END st

/-- `parse_expr` from `alanc.c`: a simple, optionally followed by one
relational or equality operator and a second simple. -/
def parse_expr : Nat → PSt → P PSt
  | 0, _ => .error .outOfFuel
  | fuel + 1, st => do
    let st ← parse_simple fuel st
    if IS_RELOP (curTok st).tt || IS_ORDOP (curTok st).tt then
      parse_simple fuel (adv st)
    else pure st

/-- `parse_simple` from `alanc.c`: optional leading minus, a term, and
the addop loop. -/
def parse_simple : Nat → PSt → P PSt
  | 0, _ => .error .outOfFuel
  | fuel + 1, st => do
    let st ← if (curTok st).tt = .MINUS then expect .MINUS st else pure st
    let st ← parse_term fuel st
    parse_addop_more fuel st

/-- The `while (IS_ADDOP(token.type))` loop of `parse_simple`. -/
def parse_addop_more : Nat → PSt → P PSt
  | 0, _ => .error .outOfFuel
  | fuel + 1, st =>
    if IS_ADDOP (curTok st).tt then do
      let st ← parse_term fuel (adv st)
      parse_addop_more fuel st
    else pure st

/-- `parse_term` from `alanc.c`: a factor and the mulop loop.  The
commented-out `check_types` calls in the loop are absent, as in the
compiled source. -/
def parse_term : Nat → PSt → P PSt
  | 0, _ => .error .outOfFuel
  | fuel + 1, st => do
    let st ← parse_factor fuel st
    parse_mulop_more fuel st

/-- The `while (IS_MULOP(token.type))` loop of `parse_term`. -/
def parse_mulop_more : Nat → PSt → P PSt
  | 0, _ => .error .outOfFuel
  | fuel + 1, st =>
    if IS_MULOP (curTok st).tt then do
      let st ← parse_factor fuel (adv st)
      parse_mulop_more fuel st
    else pure st

/-- `parse_factor` from `alanc.c`: an identifier (whose `find_name`
result `store` is dereferenced unconditionally for the ILOAD emission)
with optional subscript or argument list, a number, a parenthesised
expression, `not factor`, `true` or `false`; anything else is
`abort_compile(ERR_FACTOR_EXPECTED, ...)`. -/
def parse_factor : Nat → PSt → P PSt
  | 0, _ => .error .outOfFuel
  | fuel + 1, st =>
    match (curTok st).tt with
    | .ID => do
      let (fname, st) ← expect_id st
      let (_, store) ← p_find_core st fname
      match store with
      | none => .error .ub
      | some _ =>
        if (curTok st).tt = .OPEN_BRACKET then do
          let st ← parse_simple fuel (adv st)
          expect .CLOSE_BRACKET st
        else if (curTok st).tt = .OPEN_PARENTHESIS then do
          let st := adv st
          let st ←
            if STARTS_EXPR (curTok st).tt then do
              let st ← parse_expr fuel st
              parse_arg_more fuel st
            else pure st
          expect .CLOSE_PARENTHESIS st
        else pure st
    | .NUMBER => pure (adv st)
    | .OPEN_PARENTHESIS => do
      let st ← parse_expr fuel (adv st)
      expect .CLOSE_PARENTHESIS st
    | .NOT => parse_factor fuel (adv st)
    | .TRUE => pure (adv st)
    | .FALSE => expect .FALSE st
    | _ => .error abort_compile_outcome

end

/-- The parser state right after `main` has initialised the scanner and
symbol table and fetched the first lookahead token: the given token
stream, a fresh empty global scope, `saved_table = NULL`,
`off_counter = 0`. -/
def initPSt (ts : List Token) : PSt := ⟨ts, some [], none, 0⟩

/-- Whether a parse completed without any abort. -/
def pOk (r : P PSt) : Bool :=
  match r with
  | .ok _ => true
  | .error _ => false

/- ================================================================
   Concrete inputs used by the claim theorems and witnesses
   ================================================================ -/

/-- The exact decimal value of a digit sequence `d :: ds`. -/
def decimal_value (d : Nat) (ds : List Nat) : Nat :=
  ds.foldl (fun a x => 10 * a + x) d

/-- The token stream of the spec's scenario
`source P begin boolean b; b := 1 end`. -/
def exProgTokens : List Token :=
  [⟨.SOURCE, "", 0⟩, ⟨.ID, "P", 0⟩, ⟨.BEGIN, "", 0⟩, ⟨.BOOL, "", 0⟩,
   ⟨.ID, "b", 0⟩, ⟨.SEMICOLON, "", 0⟩, ⟨.ID, "b", 0⟩, ⟨.GETS, "", 0⟩,
   ⟨.NUMBER, "", 1⟩, ⟨.END, "", 0⟩]

/-- The token stream of a source file starting with `begin`: a syntax
error at the very first token of `parse_source`. -/
def badFirstToken : List Token := [⟨.BEGIN, "", 0⟩]

/-- A callable symbol-table property (as built by `parse_funcdef` for a
parameterless subroutine). -/
def cpropF : IDprop := ⟨TYPE_CALLABLE, 1, 0, []⟩

/-- A non-callable (boolean variable) symbol-table property. -/
def vpropB : IDprop := ⟨TYPE_BOOL, 1, 0, []⟩

/-- A second non-callable (integer variable) symbol-table property. -/
def vpropI : IDprop := ⟨TYPE_INT, 2, 0, []⟩

/- ================================================================
   Theorems
   ================================================================ -/

/-- C1: the claim says every compilation error terminates the process
with a non-zero exit code.  The code contradicts this: `abort_compile`
begins with `exit(0)`, so the first parse error --- here a source file
whose first token is `begin` instead of `source` --- terminates the
compiler with `EXIT_SUCCESS`, the exit code of a successful compilation. -/
theorem parse_error_exits_with_success_code :
    parse_source 8 (initPSt badFirstToken) =
      Except.error (CAbort.exitWith EXIT_SUCCESS) := rfl

/-- C2: the claim says `source P begin boolean b; b := 1 end` is rejected
with the type error "incompatible types (expected boolean, found
integer)".  The code accepts it: the parse completes without any abort
(no type comparison occurs in `parse_assign`), and `check_types` ---
which would print that message --- exits the process with code 0 before
comparing anything, for the very types of this program included. -/
theorem boolean_assign_integer_accepted :
    pOk (parse_source 20 (initPSt exProgTokens)) = true ∧
    check_types TYPE_INT TYPE_BOOL = CAbort.exitWith 0 := ⟨rfl, rfl⟩

/-- C3: the claim says `open_subroutine` saves the current scope as outer
and opens a fresh scope, and that `close_subroutine` restores the state
before `open_subroutine` plus the inserted callable.  The code refutes
it: after `open_subroutine` the callable is inserted into the current
table but `saved_table` is still NULL (the scope-saving code is behind a
`return`), and `close_subroutine` then frees the only table and leaves
the current table NULL --- not the pre-open state plus the callable. -/
theorem open_close_subroutine_destroys_state :
    (open_subroutine init_symbol_table "f" cpropF).2 =
      ⟨some [("f", cpropF)], none⟩ ∧
    close_subroutine (open_subroutine init_symbol_table "f" cpropF).2 =
      ⟨none, none⟩ ∧
    close_subroutine (open_subroutine init_symbol_table "f" cpropF).2 ≠
      ⟨some [("f", cpropF)], none⟩ := by
  decide

/-- C5, counterexample: with an empty current scope and a callable `f`
in the outer scope, `insert_name` fails although `f` is not present in
the current scope --- so insertion does consult the outer scope, against
the claim. -/
theorem insert_name_blocked_by_outer_callable :
    (insert_name [] (some [("f", cpropF)]) "f" vpropB).1 = false ∧
    tbl_search [] "f" = none := by
  decide

/-- C7, counterexample: the string literal `"\n"` (bytes backslash, `n`,
closing quote) produces the token bytes `[92, 110]` --- the escape kept
verbatim --- not the single newline byte `[10]` that `\n` denotes, so
escapes are not decoded. -/
theorem process_string_does_not_decode :
    process_string [] [92, 110, 34] = Except.ok ([92, 110], []) ∧
    [92, 110] ≠ [10] := ⟨rfl, by decide⟩

/-- C8, counterexample: for the input `{{x` followed by EOF (outermost
brace at column 1, inner brace at column 2), the fatal "comment not
closed" is reported at `(1, 2)`, the inner brace, not at the outermost
opening brace `(1, 1)`. -/
theorem skip_comment_reports_inner_brace :
    skip_comment 10 ⟨some 123, [123, 120], 1, 1, false⟩ =
      Except.error (1, 2) ∧ (1, 2) ≠ ((1, 1) : Pos) := ⟨rfl, by decide⟩

/-- C4: while a subroutine scope is open (`saved_table` non-NULL),
`find_name` returns the inner-scope entry if one exists; otherwise the
outer-scope entry exactly when its type carries the CALLABLE marker;
otherwise none --- as the claim states. -/
theorem find_name_scoping (cur outer : Scope) (x : String) :
    (∀ p, tbl_search cur x = some p → find_name cur (some outer) x = some p) ∧
    (tbl_search cur x = none →
      (∀ p, tbl_search outer x = some p →
        find_name cur (some outer) x =
          (if IS_CALLABLE_TYPE p.type then some p else none)) ∧
      (tbl_search outer x = none → find_name cur (some outer) x = none)) := by
  refine ⟨fun p hp => ?_, fun hc => ⟨fun p hp => ?_, fun ho => ?_⟩⟩
  · simp [find_name, find_name_core, hp]
  · cases hcall : IS_CALLABLE_TYPE p.type <;>
      simp [find_name, find_name_core, hc, hp, hcall]
  · simp [find_name, find_name_core, hc, ho]

/-- C4, witness: concrete states exercising all three cases of
`find_name_scoping`: an inner entry shadowing the outer, a callable
found only in the outer scope, and a non-callable in the outer scope
returned as none. -/
theorem find_name_scoping_witness :
    find_name [("x", vpropB)] (some [("x", vpropI)]) "x" = some vpropB ∧
    find_name [] (some [("f", cpropF)]) "f" = some cpropF ∧
    find_name [] (some [("y", vpropI)]) "y" = none := by
  refine ⟨(find_name_scoping [("x", vpropB)] [("x", vpropI)] "x").1 vpropB (by decide), ?_, ?_⟩
  · have h := ((find_name_scoping [] [("f", cpropF)] "f").2 (by decide)).1 cpropF (by decide)
    simpa using h
  · have h := ((find_name_scoping [] [("y", vpropI)] "y").2 (by decide)).1 vpropI (by decide)
    simpa using h

/-- C5, amended: `insert_name` fails iff `find_name` succeeds on the
name, i.e. iff the name is already present in the current scope, or a
subroutine scope is open and the outer scope's entry for the name
carries the CALLABLE marker.  (A name present only in the outer scope
without the CALLABLE marker can still be inserted.) -/
theorem insert_name_fails_iff (cur : Scope) (saved : Option Scope)
    (id : String) (prop : IDprop) :
    (insert_name cur saved id prop).1 = false ↔
      ((∃ p, tbl_search cur id = some p) ∨
       (∃ outer, saved = some outer ∧
         ∃ q, tbl_search outer id = some q ∧ IS_CALLABLE_TYPE q.type = true)) := by
  unfold insert_name find_name_core
  cases hc : tbl_search cur id with
  | some p =>
    simp only []
    constructor
    · intro _; exact Or.inl ⟨p, rfl⟩
    · intro _; trivial
  | none =>
    cases saved with
    | none =>
      simp
    | some outer =>
      cases ho : tbl_search outer id with
      | some q =>
        cases hq : IS_CALLABLE_TYPE q.type <;> simp [ho, hq]
      | none =>
        simp [ho]

/-- `process_string` at a closing quote: exit the loop and return the
accumulated bytes. -/
theorem process_string_quote (acc rest : List Nat) :
    process_string acc (34 :: rest) = Except.ok (acc, rest) := by
  rw [process_string.eq_def]
  simp

/-- C7, amended: for every accepted string literal the token keeps each
escape sequence verbatim as the two bytes backslash-and-character (no
decoding), exactly for the escape characters `n`, `t`, `"`, `\`; any
other escape character is the fatal illegal-escape error. -/
theorem process_string_escape_handling (acc : List Nat) (x : Nat)
    (rest : List Nat) :
    (x = 110 ∨ x = 116 ∨ x = 34 ∨ x = 92 →
      process_string acc (92 :: x :: 34 :: rest) =
        Except.ok (acc ++ [92, x], rest)) ∧
    (¬(x = 110 ∨ x = 116 ∨ x = 34 ∨ x = 92) →
      process_string acc (92 :: x :: rest) =
        Except.error StrErr.illegalEscape) := by
  constructor
  · intro h
    rcases h with h | h | h | h <;> subst h <;>
      simp [process_string, ps_bad, c_isprint, process_string_quote]
  · intro h
    push_neg at h
    obtain ⟨h1, h2, h3, h4⟩ := h
    simp [process_string, h1, h2, h3, h4]

/-- C7, amended, witness: the tab escape is kept as the two bytes
`[92, 116]`, and the escape `\x` (character `x`, code 120) is the fatal
illegal escape. -/
theorem process_string_escape_handling_witness :
    process_string [] [92, 116, 34] = Except.ok ([92, 116], []) ∧
    process_string [] [92, 120, 34] = Except.error StrErr.illegalEscape := by
  constructor
  · have h := (process_string_escape_handling [] 116 []).1 (by decide)
    simpa using h
  · exact (process_string_escape_handling [] 120 [34]).2 (by decide)

/-- Every table size the hash table ever uses (31, 61, 127, ...) is at
least 2, so `size - 1` is positive; by `decide` over the 27 indices the
`delta` array supports. -/
theorem usedSize_ge_two : ∀ n : Nat, n ≤ 26 → 2 ≤ usedSize n := by decide

/-- C10: for every key and every table size the symbol table's hash
table uses, the bucket index `shift_hash` computes --- the final
`(unsigned)h % (size - 1)` --- is strictly below the table size, so the
accesses `ht->table[k]` in `ht_insert` and `ht_search` stay within the
bucket array. -/
theorem ht_bucket_within_table (ht : HashTab) (key : List Nat) (n : Nat)
    (hn : n ≤ 26) (hsize : ht.size = usedSize n)
    (hlen : ht.table.length = ht.size) :
    ht_bucket ht key < ht.table.length := by
  have h2 : 2 ≤ ht.size := hsize ▸ usedSize_ge_two n hn
  have hm : (key.foldl hash_step 0) % (ht.size - 1) < ht.size - 1 :=
    Nat.mod_lt _ (by omega)
  simp only [ht_bucket, shift_hash, hlen]
  omega

/-- C10, witness: the initial table (size 31, 31 buckets) and the key
`"b"` (byte 98): the computed bucket index is within the bucket array. -/
theorem ht_bucket_within_table_witness :
    ht_bucket ⟨31, List.replicate 31 []⟩ [98] <
      (List.replicate 31 ([] : List (List Nat × IDprop))).length :=
  ht_bucket_within_table ⟨31, List.replicate 31 []⟩ [98] 0 (by decide)
    (by decide) (by simp)

/-- Accumulating decimal digits never decreases the accumulator. -/
theorem foldl_digits_ge (ds : List Nat) :
    ∀ n : Nat, n ≤ ds.foldl (fun a x => 10 * a + x) n := by
  induction ds with
  | nil => intro n; simp
  | cons d ds ih =>
    intro n
    calc n ≤ 10 * n + d := by omega
    _ ≤ ds.foldl (fun a x => 10 * a + x) (10 * n + d) := ih (10 * n + d)
    _ = (d :: ds).foldl (fun a x => 10 * a + x) n := by simp

/-- The accumulation loop of `process_number` computes the exact decimal
value whenever it stays within `INT_MAX`, and hits the overflow test
exactly when the value of the whole digit list exceeds `INT_MAX`. -/
theorem pn_loop_spec (ds : List Nat) :
    ∀ n : Nat, n ≤ INT_MAX → (∀ x ∈ ds, x ≤ 9) →
    pn_loop n ds =
      if ds.foldl (fun a x => 10 * a + x) n ≤ INT_MAX
      then Except.ok (ds.foldl (fun a x => 10 * a + x) n)
      else Except.error () := by
  induction ds with
  | nil =>
    intro n hn _
    simp [pn_loop, hn]
  | cons d ds ih =>
    intro n hn hds
    have hd : d ≤ 9 := hds d (List.mem_cons_self d ds)
    have hds' : ∀ x ∈ ds, x ≤ 9 := fun x hx => hds x (List.mem_cons_of_mem d hx)
    simp only [pn_loop, List.foldl_cons]
    by_cases hC : INT_MAX / 10 < n ∨ (INT_MAX / 10 = n ∧ INT_MAX % 10 < d)
    · rw [if_pos hC]
      have hover : INT_MAX < 10 * n + d := by
        simp only [INT_MAX] at hn hC ⊢
        omega
      have hmono := foldl_digits_ge ds (10 * n + d)
      rw [if_neg (by omega)]
    · rw [if_neg hC]
      have hle : 10 * n + d ≤ INT_MAX := by
        simp only [INT_MAX] at hn hC ⊢
        omega
      exact ih (10 * n + d) hle hds'

/-- C6: for every maximal digit sequence (first digit `d`, rest `ds`),
`process_number` returns a NUMBER value equal to the exact decimal value
of the digits whenever that value is at most `INT_MAX = 2 ^ 31 - 1`, and
aborts with the fatal "number too large" otherwise. -/
theorem process_number_spec (d : Nat) (ds : List Nat)
    (hd : d ≤ 9) (hds : ∀ x ∈ ds, x ≤ 9) :
    (decimal_value d ds ≤ INT_MAX →
      process_number d ds = Except.ok (decimal_value d ds)) ∧
    (INT_MAX < decimal_value d ds →
      process_number d ds = Except.error ()) := by
  have h := pn_loop_spec ds d (by simp only [INT_MAX]; omega) hds
  constructor
  · intro h1
    simp only [decimal_value] at h1 ⊢
    rw [process_number, h, if_pos h1]
  · intro h1
    simp only [decimal_value] at h1 ⊢
    rw [process_number, h, if_neg (by omega)]

/-- C6, witness: the digit sequence `2147483648` exceeds `INT_MAX` and is
the fatal overflow; the digit sequence `2147483647` is returned exactly. -/
theorem process_number_spec_witness :
    process_number 2 [1, 4, 7, 4, 8, 3, 6, 4, 8] = Except.error () ∧
    process_number 2 [1, 4, 7, 4, 8, 3, 6, 4, 7] = Except.ok 2147483647 := by
  constructor
  · exact (process_number_spec 2 [1, 4, 7, 4, 8, 3, 6, 4, 8] (by decide)
      (by decide)).2 (by decide)
  · have h := (process_number_spec 2 [1, 4, 7, 4, 8, 3, 6, 4, 7] (by decide)
      (by decide)).1 (by decide)
    simpa [decimal_value] using h

/-- `strlt` is transitive. -/
theorem strlt_trans : ∀ a b c : List Nat,
    strlt a b = true → strlt b c = true → strlt a c = true
  | [], b, c, h1, h2 => by
    cases b with
    | nil => simp [strlt] at h1
    | cons y bs =>
      cases c with
      | nil => simp [strlt] at h2
      | cons z cs => simp [strlt]
  | x :: as, b, c, h1, h2 => by
    cases b with
    | nil => simp [strlt] at h1
    | cons y bs =>
      cases c with
      | nil => simp [strlt] at h2
      | cons z cs =>
        simp only [strlt] at h1 h2 ⊢
        split_ifs at h1 h2 ⊢ <;>
          first
          | rfl
          | omega
          | exact strlt_trans as bs cs h1 h2

/-- Two byte strings neither of which is `strlt`-below the other are
equal. -/
theorem strlt_conn : ∀ a b : List Nat,
    strlt a b = false → strlt b a = false → a = b
  | [], [], _, _ => rfl
  | [], _ :: _, h1, _ => by simp [strlt] at h1
  | _ :: _, [], _, h2 => by simp [strlt] at h2
  | x :: as, y :: bs, h1, h2 => by
    simp only [strlt] at h1 h2
    split_ifs at h1 h2 <;>
      first
      | omega
      | (have hxy : x = y := by omega
         rw [hxy, strlt_conn as bs h1 h2])

/-- `strlt` is irreflexive. -/
theorem strlt_irrefl : ∀ a : List Nat, strlt a a = false
  | [] => rfl
  | x :: as => by simp [strlt, strlt_irrefl as]

/-- The reserved-word table of `scanner.c` is strictly sorted under the
`strcmp` order. -/
theorem resWordN_sorted : ∀ j : Nat, j < 25 → ∀ i : Nat, i < j →
    strlt (resWordN i) (resWordN j) = true := by decide

/-- A table index whose word equals the lexeme lies strictly before any
index whose word is `strlt`-above the lexeme. -/
theorem match_lt_mid (lex : List Nat) (m j : Nat) (hm25 : m < 25)
    (hj25 : j < 25) (hje : resWordN j = lex)
    (hlt : strlt lex (resWordN m) = true) : j < m := by
  by_contra hcon
  push_neg at hcon
  rcases Nat.eq_or_lt_of_le hcon with heq | hlt2
  · rw [heq, hje, strlt_irrefl] at hlt
    exact Bool.false_ne_true hlt
  · have hs := resWordN_sorted j hj25 m hlt2
    rw [hje] at hs
    have h := strlt_trans _ _ _ hlt hs
    rw [strlt_irrefl] at h
    exact Bool.false_ne_true h

/-- A table index whose word equals the lexeme lies strictly after any
index whose word is `strlt`-below the lexeme. -/
theorem match_gt_mid (lex : List Nat) (m j : Nat) (hm25 : m < 25)
    (hj25 : j < 25) (hje : resWordN j = lex)
    (hgt : strlt (resWordN m) lex = true) : m < j := by
  by_contra hcon
  push_neg at hcon
  rcases Nat.eq_or_lt_of_le hcon with heq | hlt2
  · rw [← heq, hje, strlt_irrefl] at hgt
    exact Bool.false_ne_true hgt
  · have hs := resWordN_sorted m hm25 j hlt2
    rw [hje] at hs
    have h := strlt_trans _ _ _ hs hgt
    rw [strlt_irrefl] at h
    exact Bool.false_ne_true h

/-- Words at distinct in-range table indices are distinct. -/
theorem resWordN_inj (i j : Nat) (hi : i < 25) (hj : j < 25)
    (h : resWordN i = resWordN j) : i = j := by
  by_contra hne
  rcases Nat.lt_or_ge i j with hlt | hge
  · have hs := resWordN_sorted j hj i hlt
    rw [h, strlt_irrefl] at hs
    exact Bool.false_ne_true hs
  · have hlt : j < i := by omega
    have hs := resWordN_sorted i hi j hlt
    rw [← h, strlt_irrefl] at hs
    exact Bool.false_ne_true hs

/-- `resWord` at a natural-number cast. -/
theorem resWord_natCast (n : Nat) : resWord (n : Int) = resWordN n := by
  simp [resWord]

/-- `resTok` at a natural-number cast. -/
theorem resTok_natCast (n : Nat) : resTok (n : Int) = resTokN n := by
  simp [resTok]

/-- Correctness invariant of the binary search of `process_word`: if
every table index whose word equals the lexeme lies in `[low, high]`,
then the final `mid` is within `[0, 24]` and equals every such index. -/
theorem bstep_correct (lex : List Nat) :
    ∀ fuel : Nat, ∀ low high : Int, 0 ≤ low → low ≤ high → high ≤ 24 →
      (high - low).toNat < fuel →
      (∀ j : Nat, j < 25 → resWordN j = lex →
        low ≤ (j : Int) ∧ (j : Int) ≤ high) →
      0 ≤ bstep fuel low high lex ∧ bstep fuel low high lex ≤ 24 ∧
        (∀ j : Nat, j < 25 → resWordN j = lex →
          bstep fuel low high lex = (j : Int)) := by
  intro fuel
  induction fuel with
  | zero =>
    intro low high h0 h1 h2 hf hj
    exact absurd hf (by omega)
  | succ fuel ih =>
    intro low high h0 h1 h2 hf hj
    simp only [bstep]
    set mid : Int := (((low + high).toNat / 2 : Nat) : Int) with hmiddef
    have hmid0 : 0 ≤ mid := by omega
    have hmlo : low ≤ mid := by omega
    have hmhi : mid ≤ high := by omega
    have hm25 : mid.toNat < 25 := by omega
    rw [resWord]
    by_cases hlt : strlt lex (resWordN mid.toNat) = true
    · rw [if_pos hlt]
      have hnj : ∀ j : Nat, j < 25 → resWordN j = lex → (j : Int) ≤ mid - 1 := by
        intro j hj25 hje
        have h := match_lt_mid lex mid.toNat j hm25 hj25 hje hlt
        omega
      by_cases hg : low ≤ mid - 1
      · rw [if_pos hg]
        exact ih low (mid - 1) h0 hg (by omega) (by omega)
          (fun j hj25 hje => ⟨(hj j hj25 hje).1, hnj j hj25 hje⟩)
      · rw [if_neg hg]
        refine ⟨hmid0, by omega, fun j hj25 hje => ?_⟩
        have ha := (hj j hj25 hje).1
        have hb := hnj j hj25 hje
        omega
    · rw [if_neg hlt]
      by_cases hgt : strlt (resWordN mid.toNat) lex = true
      · rw [if_pos hgt]
        have hnj : ∀ j : Nat, j < 25 → resWordN j = lex → mid + 1 ≤ (j : Int) := by
          intro j hj25 hje
          have h := match_gt_mid lex mid.toNat j hm25 hj25 hje hgt
          omega
        by_cases hg : mid + 1 ≤ high
        · rw [if_pos hg]
          exact ih (mid + 1) high (by omega) hg h2 (by omega)
            (fun j hj25 hje => ⟨hnj j hj25 hje, (hj j hj25 hje).2⟩)
        · rw [if_neg hg]
          refine ⟨hmid0, by omega, fun j hj25 hje => ?_⟩
          have ha := hnj j hj25 hje
          have hb := (hj j hj25 hje).2
          omega
      · rw [if_neg hgt]
        refine ⟨hmid0, by omega, fun j hj25 hje => ?_⟩
        have heqw : resWordN mid.toNat = lex :=
          strlt_conn _ _ (by simpa using hgt) (by simpa using hlt)
        have h := resWordN_inj mid.toNat j hm25 hj25 (by rw [heqw, hje])
        omega

/-- C9: for every lexeme, `process_word` classifies it as the
corresponding reserved-word token exactly when the lexeme occurs
verbatim in the reserved-word table, and otherwise as an ID token
carrying the lexeme.  (This covers in particular every lexeme matching
the identifier syntax within the length limit.) -/
theorem process_word_spec (lex : List Nat) :
    (∀ j : Nat, j < 25 → lex = resWordN j →
      process_word lex = WordResult.reserved (resTokN j)) ∧
    ((∀ j : Nat, j < 25 → lex ≠ resWordN j) →
      process_word lex = WordResult.id lex) := by
  obtain ⟨hm0, hm24, hmj⟩ := bstep_correct lex 32 0 24 (by omega) (by omega)
    (by omega) (by omega) (fun j hj25 _ => ⟨by omega, by omega⟩)
  constructor
  · intro j hj25 hje
    have hmid := hmj j hj25 hje.symm
    simp only [process_word, process_word_lookup, hmid, resWord_natCast,
      resTok_natCast]
    rw [if_pos hje]
  · intro hne
    simp only [process_word, process_word_lookup]
    have hnc : ¬ lex = resWord (bstep 32 0 24 lex) := by
      intro he
      have hm25 : (bstep 32 0 24 lex).toNat < 25 := by omega
      rw [resWord] at he
      exact hne _ hm25 he
    rw [if_neg hnc]

/-- C9, witness: the lexeme `begin` (bytes of the reserved word at index
2) is classified as the reserved token `BEGIN`; the lexeme `zz` (not in
the table) is classified as an ID carrying the lexeme. -/
theorem process_word_spec_witness :
    process_word [98, 101, 103, 105, 110] =
      WordResult.reserved TokenType.BEGIN ∧
    process_word [122, 122] = WordResult.id [122, 122] := by
  constructor
  · have h := (process_word_spec [98, 101, 103, 105, 110]).1 2 (by decide)
      (by decide)
    simpa using h
  · exact (process_word_spec [122, 122]).2 (by decide)

/-- C8, amended: an unterminated comment is fatal, but the reported
position is the opening brace of the innermost comment still open when
EOF is hit, not the outermost one: for a comment consisting of an
opening brace at column `c` followed by `m` further opening braces and
then EOF (all on line 1), the error is reported at column `c + m`. -/
theorem skip_comment_reports_innermost_open_brace (c m fuel : Nat)
    (hfuel : 2 * m + 2 ≤ fuel) :
    skip_comment fuel ⟨some 123, List.replicate m 123, c, 1, false⟩ =
      Except.error (1, c + m) := by
  induction m generalizing c fuel with
  | zero =>
    match fuel, hfuel with
    | fuel + 1, _ =>
      simp [skip_comment, next_char]
  | succ m ih =>
    match fuel, hfuel with
    | fuel + 1, hfuel =>
      have h1 : 1 ≤ fuel := by omega
      match fuel, h1 with
      | g + 1, _ =>
        have hg : 2 * m + 2 ≤ g := by omega
        have hrec := ih c.succ g hg
        simp only [skip_comment, next_char, List.replicate_succ]
        simp only [sc_loop]
        simp [hrec]
        omega

/-- C8, amended, witness: three nested opening braces starting at column
5 and hitting EOF: the report is at column 7, the innermost brace. -/
theorem skip_comment_reports_innermost_open_brace_witness :
    skip_comment 6 ⟨some 123, List.replicate 2 123, 5, 1, false⟩ =
      Except.error (1, 7) :=
  skip_comment_reports_innermost_open_brace 5 2 6 (by decide)
